import Mathlib

/-!
Verification of the caching core of `src/lib/streamlit/caching.py`.

The development shallowly embeds the module's data model and operations:

* memory-tier caches are `cachetools.TTLCache` objects (an external library
  collaborator); they are modelled with their full observable behaviour: each
  stored entry carries its expiration instant (`timer() + ttl`), lookups treat
  an entry whose expiration lies strictly before the current timer value as
  absent, a successful access marks the entry most recently used, a store
  first purges expired entries, raises `ValueError("value too large")` when a
  single entry cannot fit (`maxsize = 0`), evicts least-recently-used entries
  while over capacity, and stamps the new entry's expiration;  bounds
  (`maxsize`, `ttl`) live in `ℕ∞`, `math.inf` in the Python code being `⊤`,
  and the timer is an explicit natural-number clock value passed to each
  operation (the code's `TTLCACHE_TIMER` is monotonic);
* the registry `_MemCaches` is an association list of cache-key strings to
  memory tiers;
* the disk tier is an association list of digest keys to files, a file being
  either a fully written pickle or a truncated leftover of a failed write;
* digests produced by `streamlit.hashing.get_hash` (that module is an external
  collaborator of this file) are modelled as natural numbers produced by an
  abstract hash function passed explicitly, mirroring how `hash_funcs`
  parameterise the real hasher; a digest is always a real value, never `None`;
* Python exceptions become `Except` results or explicit error flags; fallible
  filesystem and pickle operations take failure flags describing whether the
  corresponding I/O step fails on this call.
-/

namespace StreamlitCaching

/-- Association-list lookup, first binding wins (models dict `[]`/`in`). -/
def alookup {κ β : Type} [DecidableEq κ] : List (κ × β) → κ → Option β
  | [], _ => none
  | (k, v) :: rest, key => if k = key then some v else alookup rest key

/-- Association-list update: replace the binding if present, else append
(models dict `[] =` assignment). -/
def aset {κ β : Type} [DecidableEq κ] : List (κ × β) → κ → β → List (κ × β)
  | [], key, v => [(key, v)]
  | (k, w) :: rest, key, v =>
    if k = key then (k, v) :: rest else (k, w) :: aset rest key v

/-- Association-list removal of a key (models `os.remove` / `del`). -/
def aremove {κ β : Type} [DecidableEq κ] : List (κ × β) → κ → List (κ × β)
  | [], _ => []
  | (k, w) :: rest, key =>
    if k = key then rest else (k, w) :: aremove rest key

/-- `CacheEntry = namedtuple("CacheEntry", ["value", "hash"])`: a memory-tier
entry stores the value and the value's digest captured at write time, or
`none` when mutation detection was disabled for the write. -/
structure CacheEntry (α : Type) where
  value : α
  hash : Option Nat
deriving DecidableEq, Repr

/-- A stored link of a `cachetools.TTLCache`: the `CacheEntry` payload plus
the expiration instant stamped at write time (`timer() + ttl`; `⊤` when the
tier never expires entries). -/
structure TTLEntry (α : Type) where
  entry : CacheEntry α
  expire : ℕ∞
deriving DecidableEq

/-- Model of a `cachetools.TTLCache` as used by `_MemCaches`: the configured
bounds (`maxsize`, `ttl`; `⊤` is the image of `math.inf`) together with the
stored links, kept in least-recently-used-first order (a successful access
moves a link to the back, eviction pops the front). -/
structure TTLCache (α : Type) where
  maxsize : ℕ∞
  ttl : ℕ∞
  data : List (Nat × TTLEntry α)
deriving DecidableEq

/-- A freshly constructed `TTLCache(maxsize=m, ttl=t)`: empty. -/
def freshCache (α : Type) (m t : ℕ∞) : TTLCache α := ⟨m, t, []⟩

/-- `TTLCache.expire(time)`: drop every link whose expiration lies strictly
before the current timer value (run by `__setitem__` before storing). -/
def purgeExpired {α : Type} (data : List (Nat × TTLEntry α)) (now : Nat) :
    List (Nat × TTLEntry α) :=
  data.filter (fun kv => !decide (kv.2.expire < (now : ℕ∞)))

/-- The `while currsize + size > maxsize: popitem()` loop of
`Cache.__setitem__` with every entry of size 1: evict least-recently-used
links (front of the list) until one more entry fits. -/
def evictToFit {α : Type} : List (Nat × TTLEntry α) → ℕ∞ → List (Nat × TTLEntry α)
  | [], _ => []
  | x :: rest, maxsize =>
    if ((x :: rest).length : ℕ∞) + 1 > maxsize then evictToFit rest maxsize
    else x :: rest

/-- Outcome of `mem_cache[key] = entry`: the tier afterwards and whether
`Cache.__setitem__` raised `ValueError("value too large")`.  (The purge of
expired links has already happened when the error is raised, so the tier
state changes even on failure.) -/
structure MemWriteOutcome (α : Type) where
  cache : TTLCache α
  raisedValueError : Bool

/-- `TTLCache.__setitem__(key, entry)`: purge expired links, raise
`ValueError` when a single entry exceeds `maxsize` (so at `maxsize = 0` every
store fails), replace an existing link in place (marking it most recently
used) or evict least-recently-used links until the new one fits, and stamp
the expiration `timer() + ttl`. -/
def ttlSetItem {α : Type} (c : TTLCache α) (key : Nat) (e : CacheEntry α)
    (now : Nat) : MemWriteOutcome α :=
  let purged := purgeExpired c.data now
  if (1 : ℕ∞) > c.maxsize then
    ⟨{ c with data := purged }, true⟩
  else
    let te : TTLEntry α := ⟨e, (now : ℕ∞) + c.ttl⟩
    match alookup purged key with
    | some _ => ⟨{ c with data := aremove purged key ++ [(key, te)] }, false⟩
    | none => ⟨{ c with data := evictToFit purged c.maxsize ++ [(key, te)] }, false⟩

/-- `_write_to_mem_cache(mem_cache, key, value, allow_output_mutation,
hash_funcs)`: stores a `CacheEntry` whose hash is `None` when output mutation
is allowed and the value's digest otherwise; the store is a `TTLCache`
assignment and can raise its `ValueError`. -/
def writeToMemCache {α : Type} (getHash : α → Nat) (memCache : TTLCache α)
    (key : Nat) (value : α) (allowOutputMutation : Bool) (now : Nat) :
    MemWriteOutcome α :=
  let h : Option Nat := if allowOutputMutation then none else some (getHash value)
  ttlSetItem memCache key ⟨value, h⟩ now

/-- Result of `_read_from_mem_cache`: either the value, or one of the two
exceptions it raises (`CachedObjectWasMutatedError`, which carries the cached
value, or `CacheKeyNotFoundError`). -/
inductive MemReadErr (α : Type)
  | mutated (cachedValue : α)
  | notFound
deriving DecidableEq, Repr

/-- Outcome of `_read_from_mem_cache`: the tier afterwards (a hit marks the
link most recently used) and the result. -/
structure MemReadOutcome (α : Type) where
  cache : TTLCache α
  result : Except (MemReadErr α) α

/-- `_read_from_mem_cache(mem_cache, key, allow_output_mutation, hash_funcs)`.
`key in mem_cache` is `False` for an absent or expired link
(`TTLCache.__contains__`); on a live link, `mem_cache[key]` moves it to the
most-recently-used position and the guard compares the value's current digest
(`getHash` stands for `get_hash(-, hash_funcs=hash_funcs)`) with the stored
hash unless `allow_output_mutation` is set. -/
def readFromMemCache {α : Type} (getHash : α → Nat) (memCache : TTLCache α)
    (key : Nat) (allowOutputMutation : Bool) (now : Nat) : MemReadOutcome α :=
  match alookup memCache.data key with
  | some te =>
    if te.expire < (now : ℕ∞) then
      ⟨memCache, .error .notFound⟩
    else
      let touched : TTLCache α :=
        { memCache with data := aremove memCache.data key ++ [(key, te)] }
      if allowOutputMutation ∨ some (getHash te.entry.value) = te.entry.hash then
        ⟨touched, .ok te.entry.value⟩
      else
        ⟨touched, .error (.mutated te.entry.value)⟩
  | none => ⟨memCache, .error .notFound⟩

/-- External in-place mutation of a cached object: the link's stored value
changes under the cache's feet while its recorded hash and expiration stay
what they were at write time (in Python the cache holds a reference to the
mutated object; no cache operation runs, so the link keeps its position). -/
def mutateMemEntry {α : Type} (memCache : TTLCache α) (key : Nat) (newVal : α) :
    TTLCache α :=
  match alookup memCache.data key with
  | some te =>
    { memCache with
      data := aset memCache.data key ⟨⟨newVal, te.entry.hash⟩, te.expire⟩ }
  | none => memCache

/-- A file in the on-disk cache directory: either a fully written pickle of a
`DiskCacheEntry(value)`, or the truncated leftover of a write that failed
midway (what `_write_to_disk_cache`'s cleanup is there to remove). -/
inductive DiskFile (α : Type)
  | full (value : α)
  | truncated
deriving DecidableEq

/-- The on-disk cache directory: one file per value digest (the Python path is
`cache/<key>.pickle`). -/
abbrev Disk (α : Type) := List (Nat × DiskFile α)

/-- Result of `_read_from_disk_cache`: `cacheError` for a `util.Error` wrapped
into `CacheError`, `notFound` for `OSError`/`FileNotFoundError` wrapped into
`CacheKeyNotFoundError`, `unpickling` for the uncaught exception `pickle.load`
raises on a truncated file. -/
inductive DiskReadErr
  | cacheError
  | notFound
  | unpickling
deriving DecidableEq, Repr

/-- `_read_from_disk_cache(key)`.  `readFails` says whether the
`streamlit_read`/`pickle.load` step raises `util.Error` on this call. -/
def readFromDiskCache {α : Type} (disk : Disk α) (key : Nat)
    (readFails : Bool) : Except DiskReadErr α :=
  if readFails then .error .cacheError
  else
    match alookup disk key with
    | some (.full v) => .ok v
    | some .truncated => .error .unpickling
    | none => .error .notFound

/-- Outcome of `_write_to_disk_cache`: the resulting cache directory and
whether the call raised `CacheError`. -/
structure DiskWriteOutcome (α : Type) where
  disk : Disk α
  raisedCacheError : Bool
deriving DecidableEq

/-- `_write_to_disk_cache(key, value)`.  `writeFails` says whether
`streamlit_write`/`pickle.dump` raises (`util.Error`/`struct.error`) on this
call, leaving a truncated file at the path; the handler then best-effort
removes that file — `removeFails` says whether `os.remove` itself raises one
of the swallowed `FileNotFoundError`/`IOError`/`OSError` — and re-raises the
original failure as `CacheError` either way. -/
def writeToDiskCache {α : Type} (disk : Disk α) (key : Nat) (value : α)
    (writeFails removeFails : Bool) : DiskWriteOutcome α :=
  if writeFails then
    let disk1 := aset disk key .truncated
    let disk2 := if removeFails then disk1 else aremove disk1 key
    ⟨disk2, true⟩
  else
    ⟨aset disk key (.full value), false⟩

/-- Errors the orchestrator `_read_from_cache` can let escape:
`CacheKeyNotFoundError` (memory miss without persistence, or disk-tier miss),
`CacheError` from a failed disk read, the uncaught unpickling error, or the
uncaught `ValueError` from the read-through populate of a zero-capacity
tier. -/
inductive OrchReadErr
  | keyNotFound
  | cacheError
  | unpickling
  | valueError
deriving DecidableEq, Repr

/-- Outcome of `_read_from_cache`: the memory tier afterwards (a hit marks
the link most recently used, a disk read-through repopulates the tier),
whether `st.warning` was emitted (the mutated-object warning), and the
returned value or escaping exception. -/
structure OrchReadOutcome (α : Type) where
  mem : TTLCache α
  warned : Bool
  result : Except OrchReadErr α

/-- `_read_from_cache(mem_cache, key, persisted, allow_output_mutation,
hash_funcs)`: try the memory tier; on `CachedObjectWasMutatedError` show the
mutated-output warning and return the (mutated) cached value; on
`CacheKeyNotFoundError` fall through to the disk tier when `persisted`,
writing the disk value into the memory tier before returning it (that
populate can raise the tier's `ValueError`, which nothing here catches), and
re-raise the not-found error otherwise. -/
def readFromCache {α : Type} (getHash : α → Nat) (memCache : TTLCache α)
    (disk : Disk α) (key : Nat) (persisted allowOutputMutation : Bool)
    (diskReadFails : Bool) (now : Nat) : OrchReadOutcome α :=
  let mr := readFromMemCache getHash memCache key allowOutputMutation now
  match mr.result with
  | .ok v => ⟨mr.cache, false, .ok v⟩
  | .error (.mutated v) => ⟨mr.cache, true, .ok v⟩
  | .error .notFound =>
    if persisted then
      match readFromDiskCache disk key diskReadFails with
      | .ok value =>
        let mw := writeToMemCache getHash mr.cache key value
          allowOutputMutation now
        if mw.raisedValueError then ⟨mw.cache, false, .error .valueError⟩
        else ⟨mw.cache, false, .ok value⟩
      | .error .cacheError => ⟨mr.cache, false, .error .cacheError⟩
      | .error .notFound => ⟨mr.cache, false, .error .keyNotFound⟩
      | .error .unpickling => ⟨mr.cache, false, .error .unpickling⟩
    else
      ⟨mr.cache, false, .error .keyNotFound⟩

/-- An exception escaping `_write_to_cache`: the memory tier's `ValueError`
(raised before the disk tier is touched) or the disk tier's `CacheError`. -/
inductive CacheWriteErr
  | valueError
  | cacheError
deriving DecidableEq, Repr

/-- Outcome of `_write_to_cache`: both tiers afterwards and the escaping
exception, if any (`_write_to_cache` catches nothing). -/
structure CacheWriteOutcome (α : Type) where
  mem : TTLCache α
  disk : Disk α
  err : Option CacheWriteErr

/-- `_write_to_cache(mem_cache, key, value, persist, allow_output_mutation,
hash_funcs)`: write the memory tier first — its `ValueError` propagates and
the disk tier is then never reached — then the disk tier when `persist`. -/
def writeToCache {α : Type} (getHash : α → Nat) (memCache : TTLCache α)
    (disk : Disk α) (key : Nat) (value : α)
    (persist allowOutputMutation writeFails removeFails : Bool) (now : Nat) :
    CacheWriteOutcome α :=
  let mw := writeToMemCache getHash memCache key value allowOutputMutation now
  if mw.raisedValueError then ⟨mw.cache, disk, some .valueError⟩
  else if persist then
    let dw := writeToDiskCache disk key value writeFails removeFails
    ⟨mw.cache, dw.disk, if dw.raisedCacheError then some .cacheError else none⟩
  else
    ⟨mw.cache, disk, none⟩

/-- A `max_entries`/`ttl` argument as received by `_MemCaches.get_cache`:
`None`, a numeric value (`int`/`float`, with `math.inf` as `⊤`), or a value of
any other type (the `isinstance` checks reject it). -/
inductive CacheParam
  | pnone
  | pnum (n : ℕ∞)
  | pother
deriving DecidableEq

/-- The `None`-to-`math.inf` normalisation followed by the `isinstance`
checks at the top of `_MemCaches.get_cache`; `.error` is the `RuntimeError`
they raise. -/
def normParam : CacheParam → Except Unit ℕ∞
  | .pnone => .ok ⊤
  | .pnum n => .ok n
  | .pother => .error ()

/-- `_MemCaches._function_caches`: cache-key string to memory tier. -/
abbrev Registry (α : Type) := List (String × TTLCache α)

/-- `_MemCaches.get_cache(key, max_entries, ttl)`: validate the parameters,
return the existing tier when its `ttl` and `maxsize` match, and otherwise
create a fresh empty `TTLCache` with the new bounds and store it under the
key.  Returns the tier to use together with the registry afterwards. -/
def getCache {α : Type} (reg : Registry α) (key : String)
    (maxEntries ttl : CacheParam) : Except Unit (TTLCache α × Registry α) := do
  let m ← normParam maxEntries
  let t ← normParam ttl
  match alookup reg key with
  | some memCache =>
    if memCache.ttl = t ∧ memCache.maxsize = m then
      .ok (memCache, reg)
    else
      .ok (freshCache α m t, aset reg key (freshCache α m t))
  | none => .ok (freshCache α m t, aset reg key (freshCache α m t))

/-- `_MemCaches.clear()`: empty the whole registry. -/
def clearMemCaches {α : Type} (_reg : Registry α) : Registry α := []

/-- The state a decorated function closes over after `cache(...)` ran at
decoration time: the function's cache key (`func_hasher.hexdigest()` over
module, qualified name and code), the decorator parameters, and the digest of
the function's code that `get_or_create_cached_value` mixes into each call's
`value_key`. -/
structure Decorated where
  cacheKey : String
  persist : Bool
  allowOutputMutation : Bool
  suppressStWarning : Bool
  maxEntries : CacheParam
  ttl : CacheParam
  funcCodeHash : Nat
deriving DecidableEq

/-- The only exception `cache(...)` itself raises at decoration time: the
`ignore_hash`-renamed migration `Exception`. -/
inductive DecorationErr
  | ignoreHashRenamed
deriving DecidableEq, Repr

/-- `cache(func, persist=..., allow_output_mutation=..., suppress_st_warning=...,
ignore_hash=..., max_entries=..., ttl=...)` applied to a function: rejects
`ignore_hash=True`, computes the function's cache key and closes over the
parameters.  `max_entries`/`ttl` are not inspected at decoration time. -/
def cacheDecorate (cacheKey : String) (funcCodeHash : Nat)
    (persist allowOutputMutation suppressStWarning ignoreHash : Bool)
    (maxEntries ttl : CacheParam) : Except DecorationErr Decorated :=
  if ignoreHash then .error .ignoreHashRenamed
  else .ok ⟨cacheKey, persist, allowOutputMutation, suppressStWarning,
    maxEntries, ttl, funcCodeHash⟩

/-- Failure flags for the fallible I/O steps a single wrapped call can hit:
whether the disk read raises `util.Error`, whether the disk write raises, and
whether the cleanup `os.remove` after a failed write raises. -/
structure FailFlags where
  diskReadFails : Bool
  diskWriteFails : Bool
  removeFails : Bool
deriving DecidableEq

/-- All failing I/O steps succeed. -/
def noFail : FailFlags := ⟨false, false, false⟩

/-- The process-global state a wrapped call reads and writes: the `_MemCaches`
registry, the disk cache directory, an observation counter of how many times
the underlying function's body ran (the spec's side-channel counter), how many
`st.warning` calls were emitted, and the two thread-local counters of
`ThreadLocalCacheInfo`. -/
structure GState (α : Type) where
  reg : Registry α
  disk : Disk α
  calls : Nat
  warnings : Nat
  withinCachedFunc : Int
  suppressWarnCounter : Int
deriving DecidableEq

/-- The state before any cached call: empty registry, empty disk directory,
zero counters (`ThreadLocalCacheInfo.__init__` sets both thread-locals to 0). -/
def initState (α : Type) : GState α := ⟨[], [], 0, 0, 0, 0⟩

/-- Exceptions that can escape `wrapped_func`: the `RuntimeError` from the
`max_entries`/`ttl` `isinstance` validation in `_MemCaches.get_cache`,
`CacheError` from a failed disk read or write, the uncaught unpickling error
on a truncated disk file, and the uncaught `ValueError` from a memory-tier
store on a zero-capacity tier. -/
inductive CallErr
  | runtimeConfig
  | cacheError
  | unpickling
  | valueError
deriving DecidableEq, Repr

/-- `wrapped_func(*args)` together with `get_or_create_cached_value()`, run
when the monotonic timer reads `now`:

* with `client.caching` off, call straight through to the function;
* otherwise fetch this function's memory tier via `_MemCaches.get_cache`
  (its `RuntimeError` propagates), build the per-call `value_key` from the
  argument digest and the function's code digest, and attempt
  `_read_from_cache`;
* a hit (including the warn-and-return mutated path) returns the cached value;
* `CacheKeyNotFoundError` runs the function body inside
  `_calling_cached_function` (and `suppress_cached_st_function_warning` when
  requested) and then `_write_to_cache`; a `ValueError` from the memory store
  or a `CacheError` from the disk write propagates out of the call;
* a `CacheError`/unpickling/`ValueError` failure in the read propagates out
  of the call.

Returns the global state afterwards and the call's value or exception. -/
def wrappedCall {α β : Type} (getHash : α → Nat) (argHash : β → Nat)
    (f : β → α) (d : Decorated) (cachingEnabled : Bool) (ff : FailFlags)
    (args : β) (now : Nat) (s : GState α) : GState α × Except CallErr α :=
  if ¬cachingEnabled then
    ({ s with calls := s.calls + 1 }, .ok (f args))
  else
    match getCache s.reg d.cacheKey d.maxEntries d.ttl with
    | .error _ => (s, .error .runtimeConfig)
    | .ok (memCache, reg1) =>
      let valueKey := Nat.pair (argHash args) d.funcCodeHash
      let ro := readFromCache getHash memCache s.disk valueKey d.persist
        d.allowOutputMutation ff.diskReadFails now
      let s1 := { s with
        reg := aset reg1 d.cacheKey ro.mem,
        warnings := s.warnings + (if ro.warned then 1 else 0) }
      match ro.result with
      | .ok v => (s1, .ok v)
      | .error .cacheError => (s1, .error .cacheError)
      | .error .unpickling => (s1, .error .unpickling)
      | .error .valueError => (s1, .error .valueError)
      | .error .keyNotFound =>
        let supp : Int := if d.suppressStWarning then 1 else 0
        let s2 := { s1 with
          withinCachedFunc := s1.withinCachedFunc + 1,
          suppressWarnCounter := s1.suppressWarnCounter + supp }
        let v := f args
        let s3 := { s2 with
          calls := s2.calls + 1,
          withinCachedFunc := s2.withinCachedFunc - 1,
          suppressWarnCounter := s2.suppressWarnCounter - supp }
        let wo := writeToCache getHash ro.mem s3.disk valueKey v d.persist
          d.allowOutputMutation ff.diskWriteFails ff.removeFails now
        let s4 := { s3 with
          reg := aset reg1 d.cacheKey wo.mem,
          disk := wo.disk }
        match wo.err with
        | some .valueError => (s4, .error .valueError)
        | some .cacheError => (s4, .error .cacheError)
        | none => (s4, .ok v)

/-- `ThreadLocalCacheInfo`: the per-thread pair of counters.  Python ints, so
modelled as integers (nonnegativity is a property to prove, not a typing
artefact). -/
structure ThreadCacheInfo where
  withinCachedFunc : Int
  suppressWarnCounter : Int
deriving DecidableEq, Repr

/-- `ThreadLocalCacheInfo.__init__`: both counters start at 0. -/
def initThreadCacheInfo : ThreadCacheInfo := ⟨0, 0⟩

/-- Client programs of the two context managers, as nested scopes: plain
steps, sequencing, raising an exception, a `with _calling_cached_function()`
scope and a `with suppress_cached_st_function_warning()` scope.  This covers
every way repository code drives the counters (the context managers are their
only writers). -/
inductive CounterProg
  | skip
  | raiseExc
  | seq (a b : CounterProg)
  | callingCachedScope (body : CounterProg)
  | suppressScope (body : CounterProg)

/-- Result of running a `CounterProg`: the thread-local state afterwards,
whether an exception is propagating, and the minimum value each counter took
at any point of the run (initial and final states included). -/
structure CounterRun where
  info : ThreadCacheInfo
  exc : Bool
  minWithin : Int
  minSuppress : Int

/-- Executable semantics of the two context managers.  Each scope increments
its counter on entry and decrements it in a `finally:` block, so the
decrement happens on every exit path, exceptional termination included; `seq`
stops at the first propagating exception. -/
def runCounterProg : CounterProg → ThreadCacheInfo → CounterRun
  | .skip, s => ⟨s, false, s.withinCachedFunc, s.suppressWarnCounter⟩
  | .raiseExc, s => ⟨s, true, s.withinCachedFunc, s.suppressWarnCounter⟩
  | .seq a b, s =>
    let ra := runCounterProg a s
    if ra.exc then ra
    else
      let rb := runCounterProg b ra.info
      ⟨rb.info, rb.exc, min ra.minWithin rb.minWithin,
        min ra.minSuppress rb.minSuppress⟩
  | .callingCachedScope body, s =>
    let s1 := { s with withinCachedFunc := s.withinCachedFunc + 1 }
    let rb := runCounterProg body s1
    let s2 := { rb.info with withinCachedFunc := rb.info.withinCachedFunc - 1 }
    ⟨s2, rb.exc,
      min s.withinCachedFunc (min rb.minWithin s2.withinCachedFunc),
      min s.suppressWarnCounter rb.minSuppress⟩
  | .suppressScope body, s =>
    let s1 := { s with suppressWarnCounter := s.suppressWarnCounter + 1 }
    let rb := runCounterProg body s1
    let s2 := { rb.info with
      suppressWarnCounter := rb.info.suppressWarnCounter - 1 }
    ⟨s2, rb.exc,
      min s.withinCachedFunc rb.minWithin,
      min s.suppressWarnCounter (min rb.minSuppress s2.suppressWarnCounter)⟩

/-! Helper lemmas about association lists. -/

@[simp]
theorem alookup_aset_self {κ β : Type} [DecidableEq κ] (l : List (κ × β))
    (k : κ) (v : β) : alookup (aset l k v) k = some v := by
  induction l with
  | nil => simp [aset, alookup]
  | cons hd tl ih =>
    obtain ⟨k', w⟩ := hd
    by_cases h : k' = k <;> simp [aset, alookup, h, ih]

theorem alookup_aset_of_ne {κ β : Type} [DecidableEq κ] (l : List (κ × β))
    (k k' : κ) (v : β) (h : k ≠ k') :
    alookup (aset l k v) k' = alookup l k' := by
  induction l with
  | nil => simp [aset, alookup, h]
  | cons hd tl ih =>
    obtain ⟨k'', w⟩ := hd
    by_cases h2 : k'' = k <;> simp [aset, alookup, h2, h, ih]

theorem alookup_append_right {κ β : Type} [DecidableEq κ]
    (l1 l2 : List (κ × β)) (k : κ) (h : alookup l1 k = none) :
    alookup (l1 ++ l2) k = alookup l2 k := by
  induction l1 with
  | nil => rfl
  | cons hd tl ih =>
    obtain ⟨k', w⟩ := hd
    by_cases he : k' = k
    · simp [alookup, he] at h
    · simp only [alookup, List.cons_append, if_neg he] at h ⊢
      exact ih h

theorem alookup_filter_none {κ β : Type} [DecidableEq κ]
    (l : List (κ × β)) (p : κ × β → Bool) (k : κ) (h : alookup l k = none) :
    alookup (l.filter p) k = none := by
  induction l with
  | nil => simp [alookup]
  | cons hd tl ih =>
    obtain ⟨k', w⟩ := hd
    by_cases he : k' = k
    · simp [alookup, he] at h
    · simp only [alookup, if_neg he] at h
      rw [List.filter_cons]
      by_cases hp : p (k', w) = true
      · simp only [hp, if_pos trivial, alookup, if_neg he]
        exact ih h
      · simp only [hp]
        simp only [Bool.false_eq_true, if_false]
        exact ih h

theorem alookup_evictToFit_none {α : Type} (l : List (Nat × TTLEntry α))
    (m : ℕ∞) (k : Nat) (h : alookup l k = none) :
    alookup (evictToFit l m) k = none := by
  induction l with
  | nil => simpa [evictToFit] using h
  | cons hd tl ih =>
    obtain ⟨k', w⟩ := hd
    by_cases he : k' = k
    · simp [alookup, he] at h
    · simp only [alookup, if_neg he] at h
      rw [evictToFit]
      by_cases hfit : ((((k', w) :: tl).length : ℕ∞) + 1 > m)
      · simp only [if_pos hfit]
        exact ih h
      · simp only [if_neg hfit, alookup, if_neg he]
        exact h

/-- Counterexample to C2 as stated: at a reachable zero-capacity memory tier
(`max_entries=0` passes the `isinstance` validation and replaces the
function's tier with a `TTLCache(maxsize=0)`), a memory miss with persistence
enabled reads the value from disk but the read-through populate raises
`ValueError("value too large")`, which `_read_from_cache` does not catch, so
the read does not return the value. -/
theorem read_through_zero_capacity_counterexample :
    (readFromCache (fun v : Nat => v) ⟨0, ⊤, []⟩ [(9, .full 11)] 9
      true false false 0).result = .error .valueError := rfl

/-- C2 amended: the orchestrator's read follows the order memory tier first,
then disk.  (a) A live (unexpired) memory-tier link that passes the mutation
guard is returned straight from memory — marked most recently used — for any
`persisted` setting and any disk contents; (b) on a memory miss with
persistence enabled, provided the tier's capacity admits an entry
(`maxsize ≥ 1`), the value is read from the disk tier and written into the
memory tier before being returned, the tier afterwards holding that value
stamped with the tier's ttl (at a zero-capacity tier this populate instead
raises `ValueError`, aborting the read); (c) on a memory miss with
persistence disabled, the orchestrator raises the not-found condition. -/
theorem read_mem_first_then_disk {α : Type} (getHash : α → Nat)
    (mem : TTLCache α) (disk : Disk α) (key : Nat)
    (allow readFails : Bool) (now : Nat) :
    (∀ te, alookup mem.data key = some te → ¬ te.expire < (now : ℕ∞) →
      (allow = true ∨ some (getHash te.entry.value) = te.entry.hash) →
      ∀ persisted,
        readFromCache getHash mem disk key persisted allow readFails now
        = ⟨{ mem with data := aremove mem.data key ++ [(key, te)] },
            false, .ok te.entry.value⟩)
    ∧ (alookup mem.data key = none → readFails = false →
      (1 : ℕ∞) ≤ mem.maxsize →
      ∀ v, alookup disk key = some (.full v) →
        readFromCache getHash mem disk key true allow readFails now
          = ⟨(writeToMemCache getHash mem key v allow now).cache,
              false, .ok v⟩
        ∧ alookup (writeToMemCache getHash mem key v allow now).cache.data key
          = some ⟨⟨v, if allow then none else some (getHash v)⟩,
              (now : ℕ∞) + mem.ttl⟩)
    ∧ (alookup mem.data key = none →
      readFromCache getHash mem disk key false allow readFails now
        = ⟨mem, false, .error .keyNotFound⟩) := by
  refine ⟨?_, ?_, ?_⟩
  · intro te he hexp hguard persisted
    rcases hguard with h | h
    · simp [readFromCache, readFromMemCache, he, hexp, h]
    · simp [readFromCache, readFromMemCache, he, hexp, h]
  · intro hmiss hrf hcap v hdisk
    have hms : ¬ ((1 : ℕ∞) > mem.maxsize) := not_lt.mpr hcap
    have hpurged : alookup (purgeExpired mem.data now) key = none :=
      alookup_filter_none mem.data _ key hmiss
    have hevict : alookup
        (evictToFit (purgeExpired mem.data now) mem.maxsize) key = none :=
      alookup_evictToFit_none _ mem.maxsize key hpurged
    constructor
    · simp [readFromCache, readFromMemCache, hmiss, readFromDiskCache, hrf,
        hdisk, writeToMemCache, ttlSetItem, hms, hpurged]
    · simp [writeToMemCache, ttlSetItem, hms, hpurged,
        alookup_append_right _ _ _ hevict, alookup]
  · intro hmiss
    simp [readFromCache, readFromMemCache, hmiss]

/-- Witness for C2 (amended) at concrete inputs: a live memory entry is
returned from memory; a memory miss at a one-slot tier with persistence reads
through disk and repopulates the tier; a memory miss without persistence
raises not-found. -/
theorem read_mem_first_then_disk_witness :
    (readFromCache (fun v => v) ⟨⊤, ⊤, [(9, ⟨⟨4, some 4⟩, ⊤⟩)]⟩
      [(9, .full 11)] 9 true false false 0
      = ⟨⟨⊤, ⊤, [(9, ⟨⟨4, some 4⟩, ⊤⟩)]⟩, false, .ok 4⟩)
    ∧ (readFromCache (fun v => v) ⟨1, ⊤, []⟩ [(9, .full 11)] 9 true false
        false 0
      = ⟨(writeToMemCache (fun v => v) ⟨1, ⊤, []⟩ 9 11 false 0).cache,
          false, .ok 11⟩)
    ∧ (alookup (writeToMemCache (fun v => v) ⟨1, ⊤, []⟩ 9 11 false 0).cache.data 9
      = some ⟨⟨11, some 11⟩, ⊤⟩)
    ∧ (readFromCache (fun v => v) ⟨⊤, ⊤, []⟩ [(9, .full 11)] 9 false false
        false 0
      = ⟨⟨⊤, ⊤, []⟩, false, .error .keyNotFound⟩) := by
  have h2 := (read_mem_first_then_disk (fun v => v) ⟨1, ⊤, []⟩
    [(9, .full 11)] 9 false false 0).2.1 rfl rfl (by decide) 11 (by decide)
  refine ⟨?_, h2.1, ?_, ?_⟩
  · exact (read_mem_first_then_disk (fun v => v) ⟨⊤, ⊤, [(9, ⟨⟨4, some 4⟩, ⊤⟩)]⟩
      [(9, .full 11)] 9 false false 0).1 ⟨⟨4, some 4⟩, ⊤⟩ (by decide)
      (by decide) (Or.inr (by decide)) true
  · simpa using h2.2
  · exact (read_mem_first_then_disk (fun v => v) ⟨⊤, ⊤, []⟩
      [(9, .full 11)] 9 false false 0).2.2 (by decide)

/-- C4: a live link cached with mutation detection enabled
(`allow_output_mutation=False`, stored hash = digest at write time) whose
value is then mutated externally is, on the next orchestrator read, reported
as mutated via the non-fatal `st.warning` and the mutated value itself is
returned; the read does not fail, and the tier keeps the (mutated) link,
merely marked most recently used. -/
theorem mutated_read_warns_and_returns_mutated_value {α : Type}
    (getHash : α → Nat) (mem : TTLCache α) (disk : Disk α) (key : Nat)
    (persisted readFails : Bool) (v vMut : α) (exp : ℕ∞) (now : Nat)
    (hentry : alookup mem.data key = some ⟨⟨v, some (getHash v)⟩, exp⟩)
    (hexp : ¬ exp < (now : ℕ∞))
    (hmut : getHash vMut ≠ getHash v) :
    (let te2 : TTLEntry α := ⟨⟨vMut, some (getHash v)⟩, exp⟩
    readFromCache getHash (mutateMemEntry mem key vMut) disk key persisted
      false readFails now
    = ⟨{ mem with data := aremove (aset mem.data key te2) key ++ [(key, te2)] },
        true, .ok vMut⟩) := by
  have hlook : alookup
      (aset mem.data key ⟨⟨vMut, some (getHash v)⟩, exp⟩) key
      = some ⟨⟨vMut, some (getHash v)⟩, exp⟩ :=
    alookup_aset_self mem.data key _
  simp [mutateMemEntry, hentry, readFromCache, readFromMemCache, hlook, hexp,
    hmut]

/-- Witness for C4: cache `4` under digest-is-identity hashing with detection
on, mutate the link's value to `6`, read again: the orchestrator warns and
returns `6`, the tier keeping the mutated link. -/
theorem mutated_read_warns_and_returns_mutated_value_witness :
    readFromCache (fun v => v)
      (mutateMemEntry ⟨⊤, ⊤, [(3, ⟨⟨4, some 4⟩, ⊤⟩)]⟩ 3 6) [] 3 false
      false false 0
    = ⟨⟨⊤, ⊤, [(3, ⟨⟨6, some 4⟩, ⊤⟩)]⟩, true, .ok 6⟩ :=
  mutated_read_warns_and_returns_mutated_value (fun v => v)
    ⟨⊤, ⊤, [(3, ⟨⟨4, some 4⟩, ⊤⟩)]⟩ [] 3 false false 4 6 ⊤ 0
    (by decide) (by decide) (by decide)

/-- Counterexample to C5 as stated: a live memory-tier link with null stored
hash, read while mutation detection is in effect
(`allow_output_mutation=False`), is NOT returned plainly —
`_read_from_mem_cache` compares the value's (never-null) digest against the
null stored hash, the comparison fails, and the mutated-object condition is
raised. -/
theorem null_hash_entry_counterexample :
    (readFromMemCache (fun v : Nat => v) ⟨⊤, ⊤, [(5, ⟨⟨7, none⟩, ⊤⟩)]⟩
      5 false 0).result = .error (.mutated 7) := rfl

/-- C5 amended: a live memory-tier link whose stored hash is null is returned
without the mutated-object condition exactly when mutation detection is
disabled at read time (`allow_output_mutation=True`); with mutation detection
enabled at read time, the guarded read raises the mutated-object condition
carrying the link's value (the recomputed digest never equals the null
hash). -/
theorem null_hash_entry_read_guard {α : Type} (getHash : α → Nat)
    (mem : TTLCache α) (key : Nat) (te : TTLEntry α) (now : Nat)
    (he : alookup mem.data key = some te)
    (hexp : ¬ te.expire < (now : ℕ∞)) (hnull : te.entry.hash = none) :
    (readFromMemCache getHash mem key true now).result = .ok te.entry.value
    ∧ (readFromMemCache getHash mem key false now).result
      = .error (.mutated te.entry.value) := by
  constructor <;> simp [readFromMemCache, he, hexp, hnull]

/-- Witness for C5 (amended) at a concrete live null-hash link: read with
mutation detection off returns the value, read with it on raises mutated. -/
theorem null_hash_entry_read_guard_witness :
    (readFromMemCache (fun v => v + 1) ⟨⊤, ⊤, [(5, ⟨⟨7, none⟩, ⊤⟩)]⟩
      5 true 0).result = .ok 7
    ∧ (readFromMemCache (fun v => v + 1) ⟨⊤, ⊤, [(5, ⟨⟨7, none⟩, ⊤⟩)]⟩
      5 false 0).result = .error (.mutated 7) :=
  null_hash_entry_read_guard (fun v => v + 1) ⟨⊤, ⊤, [(5, ⟨⟨7, none⟩, ⊤⟩)]⟩
    5 ⟨⟨7, none⟩, ⊤⟩ 0 (by decide) (by decide) rfl

/-- C7: `_MemCaches.get_cache` returns the existing tier unchanged when it
was created with identical bounds, and otherwise (bounds differ, or no tier
yet) stores and returns a freshly created empty tier carrying the new bounds;
an absent (`None`) `max_entries`/`ttl` normalises to `⊤` (unbounded / never
expiring by time). -/
theorem get_cache_reuses_or_replaces_tier {α : Type} (reg : Registry α)
    (key : String) (p q : CacheParam) (m t : ℕ∞)
    (hp : normParam p = .ok m) (hq : normParam q = .ok t) :
    (∀ c, alookup reg key = some c → c.ttl = t → c.maxsize = m →
      getCache reg key p q = .ok (c, reg))
    ∧ (∀ c, alookup reg key = some c → ¬(c.ttl = t ∧ c.maxsize = m) →
      getCache reg key p q
        = .ok (freshCache α m t, aset reg key (freshCache α m t)))
    ∧ (alookup reg key = none →
      getCache reg key p q
        = .ok (freshCache α m t, aset reg key (freshCache α m t)))
    ∧ (freshCache α m t).data = [] ∧ (freshCache α m t).maxsize = m
    ∧ (freshCache α m t).ttl = t ∧ normParam .pnone = .ok ⊤ := by
  refine ⟨?_, ?_, ?_, rfl, rfl, rfl, rfl⟩
  · intro c hc ht hm
    simp [getCache, hp, hq, hc, ht, hm, Except.bind, bind]
  · intro c hc hne
    simp [getCache, hp, hq, hc, hne, Except.bind, bind]
  · intro hc
    simp [getCache, hp, hq, hc, Except.bind, bind]

/-- Witness for C7: reusing a tier with matching bounds, replacing one with
differing bounds, creating one for an unknown key, with `None` params meaning
`⊤`. -/
theorem get_cache_reuses_or_replaces_tier_witness :
    (getCache [("k", (⟨⊤, ⊤, [(1, ⟨⟨5, none⟩, ⊤⟩)]⟩ : TTLCache Nat))] "k"
      .pnone .pnone
      = .ok (⟨⊤, ⊤, [(1, ⟨⟨5, none⟩, ⊤⟩)]⟩,
          [("k", (⟨⊤, ⊤, [(1, ⟨⟨5, none⟩, ⊤⟩)]⟩ : TTLCache Nat))]))
    ∧ (getCache [("k", (⟨⊤, ⊤, [(1, ⟨⟨5, none⟩, ⊤⟩)]⟩ : TTLCache Nat))] "k"
      (.pnum 2) .pnone
      = .ok (freshCache Nat 2 ⊤,
          aset [("k", (⟨⊤, ⊤, [(1, ⟨⟨5, none⟩, ⊤⟩)]⟩ : TTLCache Nat))] "k"
            (freshCache Nat 2 ⊤)))
    ∧ (getCache ([] : Registry Nat) "k" .pnone (.pnum 9)
      = .ok (freshCache Nat ⊤ 9, aset [] "k" (freshCache Nat ⊤ 9))) := by
  refine ⟨?_, ?_, ?_⟩
  · exact (get_cache_reuses_or_replaces_tier
      [("k", (⟨⊤, ⊤, [(1, ⟨⟨5, none⟩, ⊤⟩)]⟩ : TTLCache Nat))] "k"
      .pnone .pnone ⊤ ⊤ rfl rfl).1 ⟨⊤, ⊤, [(1, ⟨⟨5, none⟩, ⊤⟩)]⟩
      (by simp [alookup]) rfl rfl
  · exact (get_cache_reuses_or_replaces_tier
      [("k", (⟨⊤, ⊤, [(1, ⟨⟨5, none⟩, ⊤⟩)]⟩ : TTLCache Nat))] "k"
      (.pnum 2) .pnone 2 ⊤ rfl rfl).2.1 ⟨⊤, ⊤, [(1, ⟨⟨5, none⟩, ⊤⟩)]⟩
      (by simp [alookup]) (by decide)
  · exact (get_cache_reuses_or_replaces_tier ([] : Registry Nat) "k" .pnone
      (.pnum 9) ⊤ 9 rfl rfl).2.2.1 rfl

/-! Helper lemmas about keys of association lists, used for the disk-write
cleanup theorem (one file per digest, so the directory has no duplicate
names). -/

theorem alookup_eq_none_of_not_mem {κ β : Type} [DecidableEq κ]
    (l : List (κ × β)) (k : κ) (h : k ∉ l.map Prod.fst) :
    alookup l k = none := by
  induction l with
  | nil => simp [alookup]
  | cons hd tl ih =>
    obtain ⟨k', w⟩ := hd
    simp only [List.map_cons, List.mem_cons] at h
    push_neg at h
    have hne : ¬ k' = k := fun he => h.1 he.symm
    simp [alookup, hne, ih h.2]

theorem alookup_aremove_self_of_nodup {κ β : Type} [DecidableEq κ]
    (l : List (κ × β)) (k : κ) (h : (l.map Prod.fst).Nodup) :
    alookup (aremove l k) k = none := by
  induction l with
  | nil => simp [aremove, alookup]
  | cons hd tl ih =>
    obtain ⟨k', w⟩ := hd
    simp only [List.map_cons, List.nodup_cons] at h
    by_cases he : k' = k
    · subst he
      simp [aremove, alookup_eq_none_of_not_mem tl k' h.1]
    · simp [aremove, alookup, he, ih h.2]

theorem mem_keys_aset {κ β : Type} [DecidableEq κ] (l : List (κ × β))
    (k key : κ) (v : β) :
    key ∈ (aset l k v).map Prod.fst ↔ key = k ∨ key ∈ l.map Prod.fst := by
  induction l with
  | nil => simp [aset]
  | cons hd tl ih =>
    obtain ⟨k', w⟩ := hd
    by_cases he : k' = k
    · subst he
      simp [aset]
    · simp [aset, he, ih]
      tauto

theorem keys_aset_nodup {κ β : Type} [DecidableEq κ] (l : List (κ × β))
    (k : κ) (v : β) (h : (l.map Prod.fst).Nodup) :
    ((aset l k v).map Prod.fst).Nodup := by
  induction l with
  | nil => simp [aset]
  | cons hd tl ih =>
    obtain ⟨k', w⟩ := hd
    simp only [List.map_cons, List.nodup_cons] at h
    by_cases he : k' = k
    · subst he
      simpa [aset] using h
    · simp only [aset, if_neg he, List.map_cons, List.nodup_cons]
      refine ⟨?_, ih h.2⟩
      rw [mem_keys_aset]
      rintro (rfl | hmem)
      · exact he rfl
      · exact h.1 hmem

/-- C8: when the disk-tier write fails, the partially-written file for that
digest is removed before the `CacheError` propagates (when the cleanup
succeeds the directory no longer has a file under that name), and a failure
of the cleanup itself is swallowed: the outcome is the original `CacheError`
regardless of whether `os.remove` failed.  The hypothesis says the cache
directory holds one file per digest (no duplicate names), which every state
built by `aset`/`aremove` from an empty directory satisfies. -/
theorem disk_write_failure_removes_and_reports {α : Type} (disk : Disk α)
    (key : Nat) (value : α) (removeFails : Bool)
    (hnd : (disk.map Prod.fst).Nodup) :
    (writeToDiskCache disk key value true removeFails).raisedCacheError = true
    ∧ (removeFails = false →
      alookup (writeToDiskCache disk key value true removeFails).disk key
        = none) := by
  constructor
  · simp [writeToDiskCache]
  · intro hrm
    subst hrm
    simp only [writeToDiskCache, if_pos rfl, Bool.false_eq_true, if_neg
      (by simp : ¬False)]
    simpa using alookup_aremove_self_of_nodup
      (aset disk key (DiskFile.truncated (α := α))) key
      (keys_aset_nodup disk key _ hnd)

/-- Witness for C8: a failed write over a one-file directory reports the
original `CacheError` with the cleanup having removed the partial file, and
still reports the original error when the cleanup itself fails. -/
theorem disk_write_failure_removes_and_reports_witness :
    ((writeToDiskCache [(2, .full 5)] 2 7 true false).raisedCacheError = true
      ∧ alookup (writeToDiskCache [(2, DiskFile.full 5)] 2 7 true false).disk 2
        = none)
    ∧ (writeToDiskCache [(2, .full 5)] 2 7 true true).raisedCacheError
      = true := by
  have h1 := disk_write_failure_removes_and_reports
    [(2, DiskFile.full 5)] 2 7 false (by decide)
  have h2 := disk_write_failure_removes_and_reports
    [(2, DiskFile.full 5)] 2 7 true (by decide)
  exact ⟨⟨h1.1, h1.2 rfl⟩, h2.1⟩

/-- C9: the per-thread counters both start at 0; every context-manager scope
increments its counter on entry and decrements it on every exit path
(exceptional termination included), so after any program of nested scopes the
counters are exactly what they were before, and, starting from nonnegative
counters, neither counter is ever negative at any point of the run. -/
theorem thread_local_counters_balanced :
    initThreadCacheInfo.withinCachedFunc = 0
    ∧ initThreadCacheInfo.suppressWarnCounter = 0
    ∧ ∀ p s, (runCounterProg p s).info = s
      ∧ (0 ≤ s.withinCachedFunc → 0 ≤ s.suppressWarnCounter →
        0 ≤ (runCounterProg p s).minWithin
        ∧ 0 ≤ (runCounterProg p s).minSuppress) := by
  have hrestore : ∀ p s, (runCounterProg p s).info = s := by
    intro p
    induction p with
    | skip => intro s; rfl
    | raiseExc => intro s; rfl
    | seq a b iha ihb =>
      intro s
      simp only [runCounterProg]
      by_cases hexc : (runCounterProg a s).exc
      · simp [hexc, iha]
      · simp [hexc, iha, ihb]
    | callingCachedScope body ih =>
      intro s
      simp only [runCounterProg, ih]
      rcases s with ⟨w, sp⟩
      simp
    | suppressScope body ih =>
      intro s
      simp only [runCounterProg, ih]
      rcases s with ⟨w, sp⟩
      simp
  refine ⟨rfl, rfl, fun p s => ⟨hrestore p s, ?_⟩⟩
  intro hw hs
  induction p generalizing s with
  | skip => exact ⟨hw, hs⟩
  | raiseExc => exact ⟨hw, hs⟩
  | seq a b iha ihb =>
    have ha := iha s hw hs
    have hb := ihb s hw hs
    have hinfo := hrestore a s
    by_cases hexc : (runCounterProg a s).exc
    · simpa [runCounterProg, hexc] using ha
    · simp only [runCounterProg, hexc, Bool.false_eq_true, if_false, hinfo,
        le_min_iff]
      omega
  | callingCachedScope body ih =>
    obtain ⟨w, sp⟩ := s
    have hw2 : (0 : Int) ≤ w := hw
    have hs2 : (0 : Int) ≤ sp := hs
    have hb := ih ⟨w + 1, sp⟩ (show (0 : Int) ≤ w + 1 by omega) hs2
    have hinfo := hrestore body ⟨w + 1, sp⟩
    simp [runCounterProg, hinfo, le_min_iff]
    omega
  | suppressScope body ih =>
    obtain ⟨w, sp⟩ := s
    have hw2 : (0 : Int) ≤ w := hw
    have hs2 : (0 : Int) ≤ sp := hs
    have hb := ih ⟨w, sp + 1⟩ hw2 (show (0 : Int) ≤ sp + 1 by omega)
    have hinfo := hrestore body ⟨w, sp + 1⟩
    simp [runCounterProg, hinfo, le_min_iff]
    omega

/-- Witness for C9 at a concrete program: a cached-call scope whose body runs
a suppression scope and then raises — the counters come back to the initial
state and never went negative. -/
theorem thread_local_counters_balanced_witness :
    (runCounterProg
      (.callingCachedScope (.seq (.suppressScope .skip) .raiseExc))
      initThreadCacheInfo).info = initThreadCacheInfo
    ∧ 0 ≤ (runCounterProg
      (.callingCachedScope (.seq (.suppressScope .skip) .raiseExc))
      initThreadCacheInfo).minWithin
    ∧ 0 ≤ (runCounterProg
      (.callingCachedScope (.seq (.suppressScope .skip) .raiseExc))
      initThreadCacheInfo).minSuppress := by
  have h := (thread_local_counters_balanced.2.2
    (.callingCachedScope (.seq (.suppressScope .skip) .raiseExc))
    initThreadCacheInfo)
  exact ⟨h.1, (h.2 (by decide) (by decide)).1, (h.2 (by decide) (by decide)).2⟩

/-- Counterexample to C1 as stated: with caching globally enabled, at two
reachable decorator configurations the underlying function is NOT invoked
exactly once by two consecutive identical calls.  With `max_entries=0` (an
`int`, accepted by the `isinstance` validation) every memory store raises
`ValueError("value too large")`, so the first call runs the body and then
aborts, and the second call runs the body again — two executions.  With
`ttl=0`, the entry stored by the first call has already expired when the
timer has advanced by the second call, which therefore re-executes the body
— two executions, both returning `6`. -/
theorem idempotence_degenerate_bounds_counterexample :
    ((wrappedCall (fun v : Nat => v) (fun a : Nat => a) (fun x => 2 * x)
        ⟨"k", false, false, false, .pnum 0, .pnone, 7⟩ true noFail 3 0
        (initState Nat)).2 = .error .valueError)
    ∧ ((wrappedCall (fun v : Nat => v) (fun a : Nat => a) (fun x => 2 * x)
        ⟨"k", false, false, false, .pnum 0, .pnone, 7⟩ true noFail 3 1
        (wrappedCall (fun v : Nat => v) (fun a : Nat => a) (fun x => 2 * x)
          ⟨"k", false, false, false, .pnum 0, .pnone, 7⟩ true noFail 3 0
          (initState Nat)).1).1.calls = 2)
    ∧ ((wrappedCall (fun v : Nat => v) (fun a : Nat => a) (fun x => 2 * x)
        ⟨"k", false, false, false, .pnone, .pnum 0, 7⟩ true noFail 3 1
        (wrappedCall (fun v : Nat => v) (fun a : Nat => a) (fun x => 2 * x)
          ⟨"k", false, false, false, .pnone, .pnum 0, 7⟩ true noFail 3 0
          (initState Nat)).1).1.calls = 2)
    ∧ ((wrappedCall (fun v : Nat => v) (fun a : Nat => a) (fun x => 2 * x)
        ⟨"k", false, false, false, .pnone, .pnum 0, 7⟩ true noFail 3 1
        (wrappedCall (fun v : Nat => v) (fun a : Nat => a) (fun x => 2 * x)
          ⟨"k", false, false, false, .pnone, .pnum 0, 7⟩ true noFail 3 0
          (initState Nat)).1).2 = .ok 6) := ⟨rfl, rfl, rfl, rfl⟩

/-- C1 amended: with caching globally enabled, for every decorator
configuration whose memory tier can hold an entry (`max_entries ≥ 1` or
absent) and whose entry has not expired between the calls (the second call's
timer value within `ttl` of the first's), two consecutive calls of a freshly
decorated function with identical arguments, no intervening cache-clear and
no I/O failures run the underlying function exactly once: the first call is
a miss that computes and stores the value, the second is a memory hit that
returns the stored value without re-executing the body (the side-channel
execution counter stays at 1).  At `max_entries=0` every call re-executes
the body and raises `ValueError`; past the ttl the next call re-executes
the body. -/
theorem consecutive_identical_calls_run_function_once {α β : Type}
    (getHash : α → Nat) (argHash : β → Nat) (f : β → α) (args : β)
    (key : String) (fh : Nat) (persist allow suppress : Bool)
    (pM pT : CacheParam) (m t : ℕ∞) (now1 now2 : Nat)
    (hM : normParam pM = .ok m) (hT : normParam pT = .ok t)
    (hm1 : 1 ≤ m) (hexp : ¬ ((now1 : ℕ∞) + t < (now2 : ℕ∞))) :
    ((wrappedCall getHash argHash f ⟨key, persist, allow, suppress, pM, pT, fh⟩
        true noFail args now1 (initState α)).2 = .ok (f args))
    ∧ ((wrappedCall getHash argHash f ⟨key, persist, allow, suppress, pM, pT, fh⟩
        true noFail args now1 (initState α)).1.calls = 1)
    ∧ ((wrappedCall getHash argHash f ⟨key, persist, allow, suppress, pM, pT, fh⟩
        true noFail args now2
        (wrappedCall getHash argHash f ⟨key, persist, allow, suppress, pM, pT, fh⟩
          true noFail args now1 (initState α)).1).2 = .ok (f args))
    ∧ ((wrappedCall getHash argHash f ⟨key, persist, allow, suppress, pM, pT, fh⟩
        true noFail args now2
        (wrappedCall getHash argHash f ⟨key, persist, allow, suppress, pM, pT, fh⟩
          true noFail args now1 (initState α)).1).1.calls = 1) := by
  have hms : ¬ ((1 : ℕ∞) > m) := not_lt.mpr hm1
  cases pM with
  | pother => simp [normParam] at hM
  | pnone =>
    cases pT with
    | pother => simp [normParam] at hT
    | pnone =>
      simp [normParam] at hM hT
      subst hM
      subst hT
      cases persist <;> cases allow <;>
        simp [wrappedCall, getCache, normParam, readFromCache,
          readFromMemCache, readFromDiskCache, writeToCache, writeToMemCache,
          ttlSetItem, purgeExpired, evictToFit, writeToDiskCache, freshCache,
          initState, noFail, alookup, aset, aremove, hms, hexp,
          Except.bind, bind]
    | pnum tn =>
      simp [normParam] at hM hT
      subst hM
      subst hT
      cases persist <;> cases allow <;>
        simp [wrappedCall, getCache, normParam, readFromCache,
          readFromMemCache, readFromDiskCache, writeToCache, writeToMemCache,
          ttlSetItem, purgeExpired, evictToFit, writeToDiskCache, freshCache,
          initState, noFail, alookup, aset, aremove, hms, hexp,
          Except.bind, bind]
  | pnum mn =>
    cases pT with
    | pother => simp [normParam] at hT
    | pnone =>
      simp [normParam] at hM hT
      subst hM
      subst hT
      cases persist <;> cases allow <;>
        simp [wrappedCall, getCache, normParam, readFromCache,
          readFromMemCache, readFromDiskCache, writeToCache, writeToMemCache,
          ttlSetItem, purgeExpired, evictToFit, writeToDiskCache, freshCache,
          initState, noFail, alookup, aset, aremove, hms, hexp,
          Except.bind, bind]
    | pnum tn =>
      simp [normParam] at hM hT
      subst hM
      subst hT
      cases persist <;> cases allow <;>
        simp [wrappedCall, getCache, normParam, readFromCache,
          readFromMemCache, readFromDiskCache, writeToCache, writeToMemCache,
          ttlSetItem, purgeExpired, evictToFit, writeToDiskCache, freshCache,
          initState, noFail, alookup, aset, aremove, hms, hexp,
          Except.bind, bind]

/-- Witness for C1 (amended), the spec's end-to-end scenario: `f(x) = x * 2`
decorated with default parameters; `f(3)` at timer 0 then `f(3)` at timer 1
returns `6` both times and the body ran exactly once. -/
theorem consecutive_identical_calls_run_function_once_witness :
    ((wrappedCall (fun v => v) (fun a => a) (fun x => 2 * x)
        ⟨"k", false, false, false, .pnone, .pnone, 7⟩
        true noFail 3 0 (initState Nat)).2 = .ok 6)
    ∧ ((wrappedCall (fun v => v) (fun a => a) (fun x => 2 * x)
        ⟨"k", false, false, false, .pnone, .pnone, 7⟩
        true noFail 3 0 (initState Nat)).1.calls = 1)
    ∧ ((wrappedCall (fun v => v) (fun a => a) (fun x => 2 * x)
        ⟨"k", false, false, false, .pnone, .pnone, 7⟩
        true noFail 3 1
        (wrappedCall (fun v => v) (fun a => a) (fun x => 2 * x)
          ⟨"k", false, false, false, .pnone, .pnone, 7⟩
          true noFail 3 0 (initState Nat)).1).2 = .ok 6)
    ∧ ((wrappedCall (fun v => v) (fun a => a) (fun x => 2 * x)
        ⟨"k", false, false, false, .pnone, .pnone, 7⟩
        true noFail 3 1
        (wrappedCall (fun v => v) (fun a => a) (fun x => 2 * x)
          ⟨"k", false, false, false, .pnone, .pnone, 7⟩
          true noFail 3 0 (initState Nat)).1).1.calls = 1) :=
  consecutive_identical_calls_run_function_once (fun v => v) (fun a => a)
    (fun x => 2 * x) 3 "k" 7 false false false .pnone .pnone ⊤ ⊤ 0 1
    rfl rfl (by decide) (by decide)

/-- Counterexample to C3 as stated: decorate `f(x) = x * 2` with
`persist=True`, make the disk write fail on the first (miss) call — the call
does NOT return the computed value `6`; `get_or_create_cached_value` has no
handler for the `CacheError` raised by `_write_to_cache`, so the error
propagates out of the call. -/
theorem disk_write_error_aborts_call_counterexample :
    (wrappedCall (fun v : Nat => v) (fun a : Nat => a) (fun x => 2 * x)
      ⟨"k", true, false, false, .pnone, .pnone, 7⟩
      true ⟨false, true, false⟩ 3 0 (initState Nat)).2
    = .error .cacheError := rfl

/-- C3 amended: when a cache-miss recomputation succeeds and the memory write
succeeds (the claim's scenario presupposes the disk write was reached, which
requires a tier capacity of at least one entry) but persisting the value to
disk fails, the memory write is not rolled back — the function's tier retains
the computed entry, and a subsequent identical call within the entry's ttl is
a memory hit that returns the value without re-executing the body — but the
error is not surfaced as a mere warning: the `CacheError` from
`_write_to_disk_cache` propagates uncaught out of the failing call, which
therefore does not return the computed value. -/
theorem disk_write_error_aborts_call_but_keeps_mem_entry {α β : Type}
    (getHash : α → Nat) (argHash : β → Nat) (f : β → α) (args : β)
    (key : String) (fh : Nat) (allow suppress removeFails : Bool)
    (pM pT : CacheParam) (m t : ℕ∞) (now1 now2 : Nat)
    (hM : normParam pM = .ok m) (hT : normParam pT = .ok t)
    (hm1 : 1 ≤ m) (hexp : ¬ ((now1 : ℕ∞) + t < (now2 : ℕ∞))) :
    ((wrappedCall getHash argHash f ⟨key, true, allow, suppress, pM, pT, fh⟩
        true ⟨false, true, removeFails⟩ args now1 (initState α)).2
      = .error .cacheError)
    ∧ ((wrappedCall getHash argHash f ⟨key, true, allow, suppress, pM, pT, fh⟩
        true ⟨false, true, removeFails⟩ args now1 (initState α)).1.calls = 1)
    ∧ (alookup (wrappedCall getHash argHash f
        ⟨key, true, allow, suppress, pM, pT, fh⟩
        true ⟨false, true, removeFails⟩ args now1 (initState α)).1.reg key
      = some ((writeToMemCache getHash (freshCache α m t)
          (Nat.pair (argHash args) fh) (f args) allow now1).cache))
    ∧ ((wrappedCall getHash argHash f ⟨key, true, allow, suppress, pM, pT, fh⟩
        true noFail args now2
        (wrappedCall getHash argHash f ⟨key, true, allow, suppress, pM, pT, fh⟩
          true ⟨false, true, removeFails⟩ args now1 (initState α)).1).2
      = .ok (f args))
    ∧ ((wrappedCall getHash argHash f ⟨key, true, allow, suppress, pM, pT, fh⟩
        true noFail args now2
        (wrappedCall getHash argHash f ⟨key, true, allow, suppress, pM, pT, fh⟩
          true ⟨false, true, removeFails⟩ args now1 (initState α)).1).1.calls
      = 1) := by
  have hms : ¬ ((1 : ℕ∞) > m) := not_lt.mpr hm1
  cases pM with
  | pother => simp [normParam] at hM
  | pnone =>
    cases pT with
    | pother => simp [normParam] at hT
    | pnone =>
      simp [normParam] at hM hT
      subst hM
      subst hT
      cases allow <;> cases removeFails <;>
        simp [wrappedCall, getCache, normParam, readFromCache,
          readFromMemCache, readFromDiskCache, writeToCache, writeToMemCache,
          ttlSetItem, purgeExpired, evictToFit, writeToDiskCache, freshCache,
          initState, noFail, alookup, aset, aremove, hms, hexp,
          Except.bind, bind]
    | pnum tn =>
      simp [normParam] at hM hT
      subst hM
      subst hT
      cases allow <;> cases removeFails <;>
        simp [wrappedCall, getCache, normParam, readFromCache,
          readFromMemCache, readFromDiskCache, writeToCache, writeToMemCache,
          ttlSetItem, purgeExpired, evictToFit, writeToDiskCache, freshCache,
          initState, noFail, alookup, aset, aremove, hms, hexp,
          Except.bind, bind]
  | pnum mn =>
    cases pT with
    | pother => simp [normParam] at hT
    | pnone =>
      simp [normParam] at hM hT
      subst hM
      subst hT
      cases allow <;> cases removeFails <;>
        simp [wrappedCall, getCache, normParam, readFromCache,
          readFromMemCache, readFromDiskCache, writeToCache, writeToMemCache,
          ttlSetItem, purgeExpired, evictToFit, writeToDiskCache, freshCache,
          initState, noFail, alookup, aset, aremove, hms, hexp,
          Except.bind, bind]
    | pnum tn =>
      simp [normParam] at hM hT
      subst hM
      subst hT
      cases allow <;> cases removeFails <;>
        simp [wrappedCall, getCache, normParam, readFromCache,
          readFromMemCache, readFromDiskCache, writeToCache, writeToMemCache,
          ttlSetItem, purgeExpired, evictToFit, writeToDiskCache, freshCache,
          initState, noFail, alookup, aset, aremove, hms, hexp,
          Except.bind, bind]

/-- Witness for C3 (amended) at the concrete scenario of the counterexample:
the failing call aborts with `CacheError` after one execution, the tier keeps
the entry, and the follow-up call at the next timer tick returns `6` with no
re-execution. -/
theorem disk_write_error_aborts_call_but_keeps_mem_entry_witness :
    ((wrappedCall (fun v => v) (fun a => a) (fun x => 2 * x)
        ⟨"k", true, false, false, .pnone, .pnone, 7⟩
        true ⟨false, true, false⟩ 3 0 (initState Nat)).2 = .error .cacheError)
    ∧ ((wrappedCall (fun v => v) (fun a => a) (fun x => 2 * x)
        ⟨"k", true, false, false, .pnone, .pnone, 7⟩
        true ⟨false, true, false⟩ 3 0 (initState Nat)).1.calls = 1)
    ∧ (alookup (wrappedCall (fun v => v) (fun a => a) (fun x => 2 * x)
        ⟨"k", true, false, false, .pnone, .pnone, 7⟩
        true ⟨false, true, false⟩ 3 0 (initState Nat)).1.reg "k"
      = some ((writeToMemCache (fun v => v) (freshCache Nat ⊤ ⊤)
          (Nat.pair 3 7) 6 false 0).cache))
    ∧ ((wrappedCall (fun v => v) (fun a => a) (fun x => 2 * x)
        ⟨"k", true, false, false, .pnone, .pnone, 7⟩
        true noFail 3 1
        (wrappedCall (fun v => v) (fun a => a) (fun x => 2 * x)
          ⟨"k", true, false, false, .pnone, .pnone, 7⟩
          true ⟨false, true, false⟩ 3 0 (initState Nat)).1).2 = .ok 6)
    ∧ ((wrappedCall (fun v => v) (fun a => a) (fun x => 2 * x)
        ⟨"k", true, false, false, .pnone, .pnone, 7⟩
        true noFail 3 1
        (wrappedCall (fun v => v) (fun a => a) (fun x => 2 * x)
          ⟨"k", true, false, false, .pnone, .pnone, 7⟩
          true ⟨false, true, false⟩ 3 0 (initState Nat)).1).1.calls = 1) :=
  disk_write_error_aborts_call_but_keeps_mem_entry (fun v => v) (fun a => a)
    (fun x => 2 * x) 3 "k" 7 false false false .pnone .pnone ⊤ ⊤ 0 1
    rfl rfl (by decide) (by decide)

/-- Counterexample to C6 as stated: decorating with a non-numeric
`max_entries` raises nothing at decoration time — `cache(...)` succeeds and
hands back the wrapped function — and the `RuntimeError` from the
`isinstance` validation in `_MemCaches.get_cache` only appears at the first
call. -/
theorem invalid_params_decoration_counterexample :
    (cacheDecorate "k" 7 false false false false .pother .pnone
      = .ok ⟨"k", false, false, false, .pother, .pnone, 7⟩)
    ∧ ((wrappedCall (fun v : Nat => v) (fun a : Nat => a) (fun x => 2 * x)
        ⟨"k", false, false, false, .pother, .pnone, 7⟩
        true noFail 3 0 (initState Nat))
      = (initState Nat, .error .runtimeConfig)) := ⟨rfl, rfl⟩

/-- C6 amended: supplying a non-numeric `max_entries` or `ttl` does not fail
the decoration — `cache(...)` succeeds — and the configuration
`RuntimeError` is instead raised on the first call of the decorated function
(when the memory tier is looked up, with caching enabled); the underlying
function body never runs and the global state is untouched. -/
theorem invalid_params_error_raised_at_first_call {α β : Type}
    (getHash : α → Nat) (argHash : β → Nat) (f : β → α) (args : β)
    (key : String) (fh : Nat) (persist allow suppress : Bool)
    (pM pT : CacheParam) (now : Nat)
    (h : pM = .pother ∨ pT = .pother) :
    (cacheDecorate key fh persist allow suppress false pM pT
      = .ok ⟨key, persist, allow, suppress, pM, pT, fh⟩)
    ∧ ((wrappedCall getHash argHash f ⟨key, persist, allow, suppress, pM, pT, fh⟩
        true noFail args now (initState α))
      = (initState α, .error .runtimeConfig)) := by
  refine ⟨rfl, ?_⟩
  rcases h with h | h
  · subst h
    simp [wrappedCall, getCache, normParam, Except.bind, bind]
  · subst h
    cases pM <;>
      simp [wrappedCall, getCache, normParam, Except.bind, bind]

/-- Witness for C6 (amended): `max_entries` of a non-numeric type decorates
fine and the first call raises the configuration error with the state
untouched. -/
theorem invalid_params_error_raised_at_first_call_witness :
    (cacheDecorate "q" 8 true false false false .pnone .pother
      = .ok ⟨"q", true, false, false, .pnone, .pother, 8⟩)
    ∧ ((wrappedCall (fun v : Nat => v) (fun a : Nat => a) (fun x => x + 1)
        ⟨"q", true, false, false, .pnone, .pother, 8⟩
        true noFail 5 0 (initState Nat))
      = (initState Nat, .error .runtimeConfig)) :=
  invalid_params_error_raised_at_first_call (fun v : Nat => v)
    (fun a : Nat => a) (fun x => x + 1) 5 "q" 8 true false false
    .pnone .pother 0 (Or.inr rfl)

/-- C10: only a difference in `max_entries`/`ttl` replaces a function's
memory tier.  Flipping `allow_output_mutation` (and using arbitrary different
hash overrides, modelled by an unrelated second digest function) between
decorator evaluations leaves the tier and its entries intact: after a first
call under `allow_output_mutation=True` cached the value with a null hash
(the tier holding an entry, `maxsize ≥ 1`, still live at the second call's
timer value), a second call under `allow_output_mutation=False` with the
same bounds reads that same entry — the registry is unchanged, the body is
not re-executed, and the entry written under the old policy is read under
the new one (surfacing the spurious mutated-object warning, since its null
hash can never match a digest). -/
theorem policy_change_keeps_tier_and_entries {α β : Type}
    (getHash getHash2 : α → Nat) (argHash : β → Nat) (f : β → α) (args : β)
    (key : String) (fh : Nat) (suppress suppress2 : Bool)
    (pM pT : CacheParam) (m t : ℕ∞) (now1 now2 : Nat)
    (hM : normParam pM = .ok m) (hT : normParam pT = .ok t)
    (hm1 : 1 ≤ m) (hexp : ¬ ((now1 : ℕ∞) + t < (now2 : ℕ∞))) :
    ((wrappedCall getHash argHash f ⟨key, false, true, suppress, pM, pT, fh⟩
        true noFail args now1 (initState α)).2 = .ok (f args))
    ∧ ((wrappedCall getHash argHash f ⟨key, false, true, suppress, pM, pT, fh⟩
        true noFail args now1 (initState α)).1.calls = 1)
    ∧ ((wrappedCall getHash2 argHash f
        ⟨key, false, false, suppress2, pM, pT, fh⟩ true noFail args now2
        (wrappedCall getHash argHash f ⟨key, false, true, suppress, pM, pT, fh⟩
          true noFail args now1 (initState α)).1).2 = .ok (f args))
    ∧ ((wrappedCall getHash2 argHash f
        ⟨key, false, false, suppress2, pM, pT, fh⟩ true noFail args now2
        (wrappedCall getHash argHash f ⟨key, false, true, suppress, pM, pT, fh⟩
          true noFail args now1 (initState α)).1).1.calls = 1)
    ∧ ((wrappedCall getHash2 argHash f
        ⟨key, false, false, suppress2, pM, pT, fh⟩ true noFail args now2
        (wrappedCall getHash argHash f ⟨key, false, true, suppress, pM, pT, fh⟩
          true noFail args now1 (initState α)).1).1.warnings = 1)
    ∧ ((wrappedCall getHash2 argHash f
        ⟨key, false, false, suppress2, pM, pT, fh⟩ true noFail args now2
        (wrappedCall getHash argHash f ⟨key, false, true, suppress, pM, pT, fh⟩
          true noFail args now1 (initState α)).1).1.reg
      = (wrappedCall getHash argHash f ⟨key, false, true, suppress, pM, pT, fh⟩
          true noFail args now1 (initState α)).1.reg) := by
  have hms : ¬ ((1 : ℕ∞) > m) := not_lt.mpr hm1
  cases pM with
  | pother => simp [normParam] at hM
  | pnone =>
    cases pT with
    | pother => simp [normParam] at hT
    | pnone =>
      simp [normParam] at hM hT
      subst hM
      subst hT
      simp [wrappedCall, getCache, normParam, readFromCache,
        readFromMemCache, readFromDiskCache, writeToCache, writeToMemCache,
        ttlSetItem, purgeExpired, evictToFit, writeToDiskCache, freshCache,
        initState, noFail, alookup, aset, aremove, hms, hexp,
        Except.bind, bind]
    | pnum tn =>
      simp [normParam] at hM hT
      subst hM
      subst hT
      simp [wrappedCall, getCache, normParam, readFromCache,
        readFromMemCache, readFromDiskCache, writeToCache, writeToMemCache,
        ttlSetItem, purgeExpired, evictToFit, writeToDiskCache, freshCache,
        initState, noFail, alookup, aset, aremove, hms, hexp,
        Except.bind, bind]
  | pnum mn =>
    cases pT with
    | pother => simp [normParam] at hT
    | pnone =>
      simp [normParam] at hM hT
      subst hM
      subst hT
      simp [wrappedCall, getCache, normParam, readFromCache,
        readFromMemCache, readFromDiskCache, writeToCache, writeToMemCache,
        ttlSetItem, purgeExpired, evictToFit, writeToDiskCache, freshCache,
        initState, noFail, alookup, aset, aremove, hms, hexp,
        Except.bind, bind]
    | pnum tn =>
      simp [normParam] at hM hT
      subst hM
      subst hT
      simp [wrappedCall, getCache, normParam, readFromCache,
        readFromMemCache, readFromDiskCache, writeToCache, writeToMemCache,
        ttlSetItem, purgeExpired, evictToFit, writeToDiskCache, freshCache,
        initState, noFail, alookup, aset, aremove, hms, hexp,
        Except.bind, bind]

/-- Witness for C10: cache `f(x) = x * 2` at `x = 3` with mutation detection
off, flip the flag (and the hash overrides) for the next decorator
evaluation, call again one timer tick later: same value, one body execution
total, one warning, registry unchanged. -/
theorem policy_change_keeps_tier_and_entries_witness :
    ((wrappedCall (fun v => v) (fun a => a) (fun x => 2 * x)
        ⟨"k", false, true, false, .pnone, .pnone, 7⟩
        true noFail 3 0 (initState Nat)).2 = .ok 6)
    ∧ ((wrappedCall (fun v => v) (fun a => a) (fun x => 2 * x)
        ⟨"k", false, true, false, .pnone, .pnone, 7⟩
        true noFail 3 0 (initState Nat)).1.calls = 1)
    ∧ ((wrappedCall (fun v => v + 100) (fun a => a) (fun x => 2 * x)
        ⟨"k", false, false, false, .pnone, .pnone, 7⟩ true noFail 3 1
        (wrappedCall (fun v => v) (fun a => a) (fun x => 2 * x)
          ⟨"k", false, true, false, .pnone, .pnone, 7⟩
          true noFail 3 0 (initState Nat)).1).2 = .ok 6)
    ∧ ((wrappedCall (fun v => v + 100) (fun a => a) (fun x => 2 * x)
        ⟨"k", false, false, false, .pnone, .pnone, 7⟩ true noFail 3 1
        (wrappedCall (fun v => v) (fun a => a) (fun x => 2 * x)
          ⟨"k", false, true, false, .pnone, .pnone, 7⟩
          true noFail 3 0 (initState Nat)).1).1.calls = 1)
    ∧ ((wrappedCall (fun v => v + 100) (fun a => a) (fun x => 2 * x)
        ⟨"k", false, false, false, .pnone, .pnone, 7⟩ true noFail 3 1
        (wrappedCall (fun v => v) (fun a => a) (fun x => 2 * x)
          ⟨"k", false, true, false, .pnone, .pnone, 7⟩
          true noFail 3 0 (initState Nat)).1).1.warnings = 1)
    ∧ ((wrappedCall (fun v => v + 100) (fun a => a) (fun x => 2 * x)
        ⟨"k", false, false, false, .pnone, .pnone, 7⟩ true noFail 3 1
        (wrappedCall (fun v => v) (fun a => a) (fun x => 2 * x)
          ⟨"k", false, true, false, .pnone, .pnone, 7⟩
          true noFail 3 0 (initState Nat)).1).1.reg
      = (wrappedCall (fun v => v) (fun a => a) (fun x => 2 * x)
          ⟨"k", false, true, false, .pnone, .pnone, 7⟩
          true noFail 3 0 (initState Nat)).1.reg) :=
  policy_change_keeps_tier_and_entries (fun v => v) (fun v => v + 100)
    (fun a => a) (fun x => 2 * x) 3 "k" 7 false false .pnone .pnone ⊤ ⊤ 0 1
    rfl rfl (by decide) (by decide)

end StreamlitCaching
